import Mathlib

/-!
Verification of the NMEA sentence serialization framework
(`src/TypeErasureChapter`): the extraction stream (SentenceReader), the
insertion stream (SentenceWriter), the checksum/tokenization layer, and the
type-erased message container.

Sentences are byte sequences; we model bytes as `Nat` holding ASCII values
(the code layers `std::string_view` over the same bytes, so one carrier
suffices).  Fallible parses return `Option`.  Machine-integer limits are
explicit (`2^31`, `2^32`, `2^64`) where the C++ code can overflow.
-/

/-- Convert an ASCII string literal to its byte list (ASCII = code point). -/
def str (s : String) : List Nat := s.data.map Char.toNat

/-- Bytes removed by `trimTrailing` (NMEAExtractionStream.cpp:243-256):
NUL, CR, LF, and anything `std::isspace` accepts (TAB..CR, space). -/
def isTrimByte (b : Nat) : Bool :=
  b = 0 || b = 13 || b = 10 || b = 32 || (decide (9 ≤ b) && decide (b ≤ 13))

/-- `trimTrailing` (NMEAExtractionStream.cpp:243-256): remove trailing
NUL/CR/LF/whitespace bytes.  The source while-loop pops from the back until a
non-trimmable byte is seen; equivalently, drop the trimmable suffix. -/
def trimTrailing (l : List Nat) : List Nat :=
  (l.reverse.dropWhile isTrimByte).reverse

/-- The XOR accumulation loop of `calculateNMEAChecksum`
(AnyNMEAMessage.h / NMEACommon.cpp lines 393-415): fold XOR over the bytes,
breaking at the first `*` (42). -/
def checksumLoop : List Nat → Nat → Nat
  | [], acc => acc
  | b :: rest, acc => if b = 42 then acc else checksumLoop rest (Nat.xor acc b)

/-- `calculateNMEAChecksum(data, length)` (NMEACommon.cpp:393-415): XOR of
`data[i]` for `i` in `[1, length)`, stopping at the first `*`. -/
def calculateNMEAChecksum (data : List Nat) (length : Nat) : Nat :=
  checksumLoop ((data.take length).drop 1) 0

/-- `hexVal` lambda inside `parseHex2` (NMEAExtractionStream.cpp:322-327). -/
def hexVal (b : Nat) : Option Nat :=
  if 48 ≤ b ∧ b ≤ 57 then some (b - 48)
  else if 65 ≤ b ∧ b ≤ 70 then some (b - 65 + 10)
  else if 97 ≤ b ∧ b ≤ 102 then some (b - 97 + 10)
  else none

/-- `parseHex2` (NMEAExtractionStream.cpp:319-333): parse the first two bytes
as hex digits, `(hi << 4) | lo`; fail if fewer than two bytes or non-hex. -/
def parseHex2 (l : List Nat) : Option Nat :=
  match l with
  | a :: b :: _ =>
    match hexVal a, hexVal b with
    | some hi, some lo => some (hi * 16 + lo)
    | _, _ => none
  | _ => none

/-- Index of the last `*` (42) in the list, as `std::string_view::rfind`
(NMEAExtractionStream.cpp:63).  The trailing run of non-`*` bytes has length
`r`; if it is the whole list there is no `*`, otherwise the last `*` sits at
`length - r - 1`. -/
def rfindStar (l : List Nat) : Option Nat :=
  let r := (l.reverse.takeWhile (fun b => b ≠ 42)).length
  if r = l.length then none else some (l.length - r - 1)

/-- Comma-splitting loop of `parseMessage` (NMEAExtractionStream.cpp:283-304),
with an accumulator for the field being built.  The source while-loop pushes
`substr` pieces between commas; its explicit trailing-comma branch (push one
empty field and stop) coincides with recursing on the empty remainder, which
also yields exactly one empty field. -/
def splitFieldsAux : List Nat → List Nat → List (List Nat)
  | [], acc => [acc.reverse]
  | b :: rest, acc =>
    if b = 44 then acc.reverse :: splitFieldsAux rest []
    else splitFieldsAux rest (b :: acc)

/-- `parseMessage` (NMEAExtractionStream.cpp:258-307): trim trailing bytes,
require a leading `$` (36), cut everything from the first `*` (42) onward and
re-trim, drop the `$`, split the body on `,` (44). -/
def parseMessage (message : List Nat) : List (List Nat) :=
  let message := trimTrailing message
  if message.head? = some 36 then
    let stripped := message.takeWhile (fun b => b ≠ 42)
    let message := if stripped.length < message.length then trimTrailing stripped
                   else message
    splitFieldsAux (message.drop 1) []
  else []

/-- State of an `NMEAExtractionStream` (NMEAExtractionStream.h:58-78). -/
structure NMEAExtractionStream where
  mFields : List (List Nat)
  mChecksumValidFlag : Bool
  mChecksum : Nat
  mErrorFlag : Bool
  mTalker : List Nat
  mMessage : List Nat
  mFieldIdx : Nat
deriving DecidableEq, Repr

/-- The `NMEAExtractionStream` constructor (NMEAExtractionStream.cpp:52-91):
trim the message, locate the last `*`, parse and compare the two-hex-digit
checksum (computed over the original bytes up to and including the `*`),
record validity and the parsed value, tokenize the fields, and split the
header token into talker and message codes (sentinels on a short header).
`mErrorFlag` starts false and `mFieldIdx` starts at 1 (header initializers). -/
def mkStream (nmeaMessage : List Nat) : NMEAExtractionStream :=
  let msg := trimTrailing nmeaMessage
  let ck : Bool × Nat :=
    match rfindStar msg with
    | some star =>
      if star + 3 ≤ msg.length then
        match parseHex2 (msg.drop (star + 1)) with
        | some parsed =>
          let computed := calculateNMEAChecksum nmeaMessage (star + 1)
          (decide (computed = parsed), parsed)
        | none => (false, 0)
      else (false, 0)
    | none => (false, 0)
  let fields := parseMessage msg
  let hdr := fields.headD []
  let tm : List Nat × List Nat :=
    if fields ≠ [] ∧ 5 ≤ hdr.length then (hdr.take 2, (hdr.drop 2).take 3)
    else (str "XX", str "YYY")
  { mFields := fields
    mChecksumValidFlag := ck.1
    mChecksum := ck.2
    mErrorFlag := false
    mTalker := tm.1
    mMessage := tm.2
    mFieldIdx := 1 }

/-- `isChecksumValid` (NMEAExtractionStream.cpp:103-106).  The source body is
literally `return false;` — it never consults `mChecksumValidFlag`. -/
def isChecksumValid (_s : NMEAExtractionStream) : Bool := false

/-- `hasError` (NMEAExtractionStream.h:44). -/
def hasError (s : NMEAExtractionStream) : Bool := s.mErrorFlag

/-- `numberOfFields` (NMEAExtractionStream.cpp:108-111). -/
def numberOfFields (s : NMEAExtractionStream) : Nat := s.mFields.length

/-- `reset` (NMEAExtractionStream.cpp:113-116): `mFieldIdx = 1;`. -/
def reset (s : NMEAExtractionStream) : NMEAExtractionStream :=
  { s with mFieldIdx := 1 }

/-- `nextField` (NMEAExtractionStream.cpp:40-49): past the last field, set the
error flag and return the empty view; otherwise return the current field and
advance the cursor. -/
def nextField (s : NMEAExtractionStream) : NMEAExtractionStream × List Nat :=
  if s.mFields.length ≤ s.mFieldIdx then ({ s with mErrorFlag := true }, [])
  else ({ s with mFieldIdx := s.mFieldIdx + 1 }, s.mFields.getD s.mFieldIdx [])

/-- ASCII decimal digit. -/
def isDigitByte (b : Nat) : Bool := decide (48 ≤ b) && decide (b ≤ 57)

/-- `isHexDigit` (NMEAExtractionStream.cpp:33-38). -/
def isHexByte (b : Nat) : Bool :=
  (decide (48 ≤ b) && decide (b ≤ 57)) ||
  (decide (97 ≤ b) && decide (b ≤ 102)) ||
  (decide (65 ≤ b) && decide (b ≤ 70))

/-- Value of a decimal digit string (most significant first). -/
def digitsVal (l : List Nat) : Nat := l.foldl (fun a b => a * 10 + (b - 48)) 0

/-- Value of a hex digit string (most significant first); digits are assumed
to satisfy `isHexByte`. -/
def hexValue (l : List Nat) : Nat :=
  l.foldl (fun a b => a * 16 + ((hexVal b).getD 0)) 0

/-- `std::from_chars(begin, end, v, 10)` into `int`, combined with the
whole-field check `res.ptr == end` (NMEAExtractionStream.cpp:128-138):
an optional minus sign, then at least one digit, nothing else, and the value
must fit a 32-bit `int` (otherwise `errc::result_out_of_range`). -/
def fromCharsInt (f : List Nat) : Option Int :=
  let p : Bool × List Nat := match f with
    | 45 :: r => (true, r)
    | r => (false, r)
  if p.2 = [] then none
  else if p.2.all isDigitByte then
    let v : Int := (digitsVal p.2 : Int)
    let v := if p.1 then -v else v
    if -(2 ^ 31) ≤ v ∧ v ≤ 2 ^ 31 - 1 then some v else none
  else none

/-- `std::strtod` combined with the whole-field checks on `errno`, `endPtr`
(NMEAExtractionStream.cpp:154-165), modelled for plain decimal literals
(optional sign, digits with optional fraction, optional exponent); the whole
field must be consumed. -/
def strtodParse (f : List Nat) : Option ℚ :=
  let p : ℚ × List Nat := match f with
    | 45 :: r => (-1, r)
    | 43 :: r => (1, r)
    | r => (1, r)
  let intPart := p.2.takeWhile isDigitByte
  let rest2 := p.2.dropWhile isDigitByte
  let q : List Nat × List Nat := match rest2 with
    | 46 :: r => (r.takeWhile isDigitByte, r.dropWhile isDigitByte)
    | r => ([], r)
  if intPart = [] ∧ q.1 = [] then none
  else
    let mant : ℚ :=
      p.1 * ((digitsVal intPart : ℚ) + (digitsVal q.1 : ℚ) / (10 : ℚ) ^ q.1.length)
    match q.2 with
    | [] => some mant
    | 101 :: r =>
      let e : Int × List Nat := match r with
        | 45 :: rr => (-1, rr)
        | 43 :: rr => (1, rr)
        | rr => (1, rr)
      let eds := e.2.takeWhile isDigitByte
      if eds = [] ∨ e.2.dropWhile isDigitByte ≠ [] then none
      else some (mant * (10 : ℚ) ^ (e.1 * (digitsVal eds : Int)))
    | 69 :: r =>
      let e : Int × List Nat := match r with
        | 45 :: rr => (-1, rr)
        | 43 :: rr => (1, rr)
        | rr => (1, rr)
      let eds := e.2.takeWhile isDigitByte
      if eds = [] ∨ e.2.dropWhile isDigitByte ≠ [] then none
      else some (mant * (10 : ℚ) ^ (e.1 * (digitsVal eds : Int)))
    | _ => none

/-- `operator>>(int&)` (NMEAExtractionStream.cpp:118-142): take the next
field; empty field or failed strict base-10 parse sets the error flag and
stores 0. -/
def extractInt (s : NMEAExtractionStream) : NMEAExtractionStream × Int :=
  let r := nextField s
  if r.2 = [] then ({ r.1 with mErrorFlag := true }, 0)
  else
    match fromCharsInt r.2 with
    | some v => (r.1, v)
    | none => ({ r.1 with mErrorFlag := true }, 0)

/-- `operator>>(double&)` (NMEAExtractionStream.cpp:144-169): take the next
field; empty field or failed whole-field `strtod` sets the error flag and
stores 0.0. -/
def extractDouble (s : NMEAExtractionStream) : NMEAExtractionStream × ℚ :=
  let r := nextField s
  if r.2 = [] then ({ r.1 with mErrorFlag := true }, 0)
  else
    match strtodParse r.2 with
    | some v => (r.1, v)
    | none => ({ r.1 with mErrorFlag := true }, 0)

/-- Removal of one optional leading `0x`/`0X` (NMEAExtractionStream.cpp:
181-185): `hex[0] == '0' && (hex[1] == 'x' || hex[1] == 'X')`. -/
def stripHexMark (f : List Nat) : List Nat :=
  if 2 ≤ f.length ∧ f.getD 0 0 = 48 ∧ (f.getD 1 0 = 120 ∨ f.getD 1 0 = 88)
  then f.drop 2 else f

/-- `std::from_chars(…, v, 16)` into `uint32_t` at the call site of
NMEAExtractionStream.cpp:204-211, where the caller has already checked that
the bytes are nonempty hex digits: the parse consumes everything and fails
only with `result_out_of_range` when the value exceeds `2^32 - 1`. -/
def fromCharsHexU32 (l : List Nat) : Option Nat :=
  let v := hexValue l
  if v < 2 ^ 32 then some v else none

/-- `operator>>(Register32Bits&)` (NMEAExtractionStream.cpp:171-215).  The
`Register32Bits` payload is modelled by its 32-bit value (the spec treats it
as opaque with an unsigned accessor).  Empty field, empty remainder after the
`0x` mark, a non-hex byte, or an out-of-range value set the error flag and
store 0. -/
def extractRegister (s : NMEAExtractionStream) : NMEAExtractionStream × Nat :=
  let r := nextField s
  if r.2 = [] then ({ r.1 with mErrorFlag := true }, 0)
  else
    let hex := stripHexMark r.2
    if hex = [] then ({ r.1 with mErrorFlag := true }, 0)
    else if hex.all isHexByte then
      match fromCharsHexU32 hex with
      | some v => (r.1, v)
      | none => ({ r.1 with mErrorFlag := true }, 0)
    else ({ r.1 with mErrorFlag := true }, 0)

/-- `operator>>(std::string&)` (NMEAExtractionStream.cpp:217-222): assign the
next field verbatim (no error branch of its own; `nextField` flags
exhaustion). -/
def extractString (s : NMEAExtractionStream) : NMEAExtractionStream × List Nat :=
  let r := nextField s
  (r.1, r.2)

/-!
## Insertion stream (SentenceWriter)

`NMEAInsertionStream` (NMEAInsertionStream.cpp, concatenated at
AnyNMEAMessage.h lines 535-777).  The output buffer is modelled by the list of
write events `(offset, byte)` the code performs, in order; a read of the
buffer returns the last byte written at that offset (0 if none — the demo
buffers are zero-initialized).  `mCursor` is `mCurrentPtr - mBeginPtr`.  A
write event at an offset `≥ mCapacity` is a write beyond the buffer.
-/

structure NMEAInsertionStream where
  mCapacity : Nat
  mCursor : Nat
  mLen : Nat
  mBase : Nat
  writes : List (Nat × Nat)
deriving DecidableEq, Repr

/-- `size_t` subtraction as the C++ expressions `mCapacity - mLen` compute it
(unsigned 64-bit wraparound), for operands below `2^64`. -/
def subSize (a b : Nat) : Nat :=
  if b ≤ a then a - b else 2 ^ 64 - (b - a)

/-- Append write events storing `bs` consecutively from offset `start`. -/
def storeBytes (w : List (Nat × Nat)) (start : Nat) (bs : List Nat) :
    List (Nat × Nat) :=
  w ++ bs.enum.map (fun p => (start + p.1, p.2))

/-- Last byte written at offset `i` (0 if the offset was never written,
matching the zero-initialized demo buffers). -/
def bufAt (w : List (Nat × Nat)) (i : Nat) : Nat :=
  match (w.filter (fun e => e.1 = i)).getLast? with
  | some e => e.2
  | none => 0

/-- The first `n` buffer bytes. -/
def bufBytes (w : List (Nat × Nat)) (n : Nat) : List Nat :=
  (List.range n).map (bufAt w)

/-- Decimal digit bytes of `n`, least significant first; structurally
recursive on a fuel bound (`n` itself bounds the digit count), so that the
kernel can evaluate it. -/
def natDecAux : Nat → Nat → List Nat
  | 0, _ => []
  | fuel + 1, n => if n = 0 then [] else (n % 10 + 48) :: natDecAux fuel (n / 10)

/-- Decimal digit bytes of `n`, most significant first (`"0"` for 0). -/
def natToDec (n : Nat) : List Nat :=
  if n = 0 then [48] else (natDecAux n n).reverse

/-- Uppercase hex digit bytes of `n`, least significant first (fuel-bounded
structural recursion, as `natDecAux`). -/
def natHexAux : Nat → Nat → List Nat
  | 0, _ => []
  | fuel + 1, n =>
    if n = 0 then []
    else (if n % 16 < 10 then n % 16 + 48 else n % 16 + 55) :: natHexAux fuel (n / 16)

/-- Uppercase hex digit bytes of `n`, most significant first (`"0"` for 0). -/
def natToHex (n : Nat) : List Nat :=
  if n = 0 then [48] else (natHexAux n n).reverse

/-- `%0kX`: uppercase hex, zero-padded on the left to width `k`. -/
def hexPad (k n : Nat) : List Nat :=
  let h := natToHex n
  List.replicate (k - h.length) 48 ++ h

/-- `%d` of an `int`. -/
def decRepr (i : Int) : List Nat :=
  if i < 0 then 45 :: natToDec i.natAbs else natToDec i.toNat

/-- The constructor (AnyNMEAMessage.h:561-596): if the capacity cannot hold
`$ + talker + msg + ,` the buffer is left untouched; otherwise the preamble
is written and the length/cursor advance.  The numeric base defaults to
decimal (its member initializer lives in NMEAInsertionStream.h, which is not
under src/; the spec's writer scenario formats a fresh stream's integer in
decimal). -/
def mkWriter (capacity : Nat) (talker msg : List Nat) : NMEAInsertionStream :=
  let required := 1 + talker.length + msg.length + 1
  if capacity < required then
    { mCapacity := capacity, mCursor := 0, mLen := 0, mBase := 10, writes := [] }
  else
    { mCapacity := capacity
      mCursor := required
      mLen := required
      mBase := 10
      writes := storeBytes [] 0 (36 :: (talker ++ msg ++ [44])) }

/-- `operator<<(int)` (AnyNMEAMessage.h:605-633): `snprintf` of `"%d,"`
(decimal base) or `"0x%04X,"` (hex base, argument read as `unsigned`) with
bound `remaining = mCapacity - mLen`; `snprintf` stores at most
`remaining - 1` bytes plus a terminating NUL (nothing when `remaining` is 0)
and returns the full formatted length, which is added to `mLen` and the
cursor even when the output was truncated. -/
def intOp (s : NMEAInsertionStream) (i : Int) : NMEAInsertionStream :=
  let remaining := subSize s.mCapacity s.mLen
  let stri : List Nat :=
    if s.mBase = 10 then decRepr i ++ [44]
    else if s.mBase = 16 then
      48 :: 120 :: (hexPad 4 ((i % (2 ^ 32)).toNat) ++ [44])
    else []
  let written := stri.length
  let stored :=
    if remaining = 0 ∨ stri = [] then s.writes
    else
      let k := min written (remaining - 1)
      (storeBytes s.writes s.mCursor (stri.take k)).concat (s.mCursor + k, 0)
  if 0 < written then
    { s with writes := stored, mLen := s.mLen + written,
             mCursor := s.mCursor + written }
  else { s with writes := stored }

/-- `%f`: fixed six decimal places of a nonnegative rational (the modelled
rounding is to nearest; the scenario values are exact at six places). -/
def formatFNonneg (q : ℚ) : List Nat :=
  let n : Nat := (q.num.toNat * 1000000 * 2 + q.den) / (2 * q.den)
  natToDec (n / 1000000) ++ (46 :: (List.replicate
    (6 - (natToDec (n % 1000000)).length) 48 ++ natToDec (n % 1000000)))

/-- `%f` of a double, modelled on rationals. -/
def formatF (q : ℚ) : List Nat :=
  if q < 0 then 45 :: formatFNonneg (-q) else formatFNonneg q

/-- `operator<<(double)` (AnyNMEAMessage.h:635-642): plain `sprintf` of
`"%f,"` with no capacity bound — every byte (and a trailing NUL) is stored
regardless of remaining capacity, and the length/cursor advance by the
formatted size. -/
def dblOp (s : NMEAInsertionStream) (d : ℚ) : NMEAInsertionStream :=
  let strd := formatF d ++ [44]
  let sz := strd.length
  { s with
    writes := (storeBytes s.writes s.mCursor strd).concat (s.mCursor + sz, 0)
    mLen := s.mLen + sz
    mCursor := s.mCursor + sz }

/-- `operator<<(const std::string&)` (AnyNMEAMessage.h:644-664): no-op when
the string plus its comma does not fit, else copy the bytes and a comma. -/
def strOp (s : NMEAInsertionStream) (txt : List Nat) : NMEAInsertionStream :=
  let sz := txt.length
  if subSize s.mCapacity s.mLen < sz + 1 then s
  else
    { s with
      writes := storeBytes s.writes s.mCursor (txt ++ [44])
      mLen := s.mLen + (sz + 1)
      mCursor := s.mCursor + (sz + 1) }

/-- `operator<<(EmptyField)` (AnyNMEAMessage.h:675-682): store one comma at
the cursor and advance, with no capacity check at all. -/
def emptyFieldOp (s : NMEAInsertionStream) : NMEAInsertionStream :=
  { s with
    writes := s.writes.concat (s.mCursor, 44)
    mLen := s.mLen + 1
    mCursor := s.mCursor + 1 }

/-- `operator<<(Hex)` (AnyNMEAMessage.h:691-696). -/
def hexOp (s : NMEAInsertionStream) : NMEAInsertionStream :=
  { s with mBase := 16 }

/-- `operator<<(Dec)` (AnyNMEAMessage.h:698-703). -/
def decOp (s : NMEAInsertionStream) : NMEAInsertionStream :=
  { s with mBase := 10 }

/-- `operator<<(EndMsg)` (AnyNMEAMessage.h:705-777): nothing to do on an
empty writer; drop one trailing comma; require six free bytes for
`"*HH\r\n"` plus NUL; store a temporary NUL; compute the checksum over the
bytes written so far; `snprintf` the `"*HH\r\n"` tail (5 bytes plus NUL,
clamping cursor and length to capacity on truncation); store a final NUL when
room remains. -/
def endMsgOp (s : NMEAInsertionStream) : NMEAInsertionStream :=
  if s.mLen = 0 then s
  else
    let s :=
      if bufAt s.writes (s.mCursor - 1) = 44 then
        { s with mCursor := s.mCursor - 1, mLen := s.mLen - 1 }
      else s
    if subSize s.mCapacity s.mLen < 6 then s
    else
      let s := { s with writes := s.writes.concat (s.mCursor, 0) }
      let checksum := calculateNMEAChecksum (bufBytes s.writes s.mLen) s.mLen
      let remaining := subSize s.mCapacity s.mLen
      let tail5 := 42 :: (hexPad 2 checksum ++ [13, 10])
      let written := 5
      let k := min written (remaining - 1)
      let s :=
        { s with
          writes := (storeBytes s.writes s.mCursor (tail5.take k)).concat
            (s.mCursor + k, 0) }
      if remaining ≤ written then
        { s with mCursor := s.mCapacity, mLen := s.mCapacity }
      else
        let s := { s with mCursor := s.mCursor + written,
                          mLen := s.mLen + written }
        if s.mLen < s.mCapacity then
          { s with writes := s.writes.concat (s.mCursor, 0) }
        else s

/-!
## Type-erased message container (AnyNMEAMessage)

The erasure (AnyNMEAMessage.h:51-288) stores `Model<T>` behind a `Concept`
pointer and identifies the payload type with `typeid`.  We model the open set
of payload types by the concrete payload types of the repository's demo and
tests (`GGAMessage`, `RMCMessage`, typeErasureDemo.cpp:19-30): a tag plays
the role of `typeid`, and the stored payload is a dependent pair of a tag and
a value of that tag's type.
-/

structure GGAMessage where
  i : Int
  d : ℚ
  s : List Nat
deriving DecidableEq, Repr

structure RMCMessage where
  a : Int
  b : ℚ
  c : List Nat
deriving DecidableEq, Repr

inductive PayloadTag
  | gga
  | rmc
deriving DecidableEq, Repr

def PayloadType : PayloadTag → Type
  | .gga => GGAMessage
  | .rmc => RMCMessage

/-- `AnyNMEAMessage` (AnyNMEAMessage.h:278-288): optional owned payload plus
inline metadata. -/
structure AnyNMEAMessage where
  self_ : Option (Σ t : PayloadTag, PayloadType t)
  talker_ : List Nat
  messageName_ : List Nat
  checksum_ : Nat
  size_ : Nat

/-- `AnyNMEAMessage::empty` (AnyNMEAMessage.h:104). -/
def msgEmpty (m : AnyNMEAMessage) : Bool := m.self_.isNone

/-- `AnyNMEAMessage::isType<T>` (AnyNMEAMessage.h:168-172): non-null payload
whose `typeid` equals `T`. -/
def isType (T : PayloadTag) (m : AnyNMEAMessage) : Bool :=
  match m.self_ with
  | some p => decide (p.1 = T)
  | none => false

/-- `AnyNMEAMessage::tryGet<T>` (AnyNMEAMessage.h:174-184): the stored value
when the type matches, null otherwise. -/
def tryGet (T : PayloadTag) (m : AnyNMEAMessage) : Option (PayloadType T) :=
  match m.self_ with
  | some p => if h : p.1 = T then some (h ▸ p.2) else none
  | none => none

/-- The error a checked access can raise. -/
inductive AccessError
  | typeMismatch
deriving DecidableEq, Repr

/-- `AnyNMEAMessage::get<T>` (AnyNMEAMessage.h:186-200): `tryGet`, throwing
`std::bad_cast` (the type-mismatch error) on null. -/
def getChecked (T : PayloadTag) (m : AnyNMEAMessage) :
    Except AccessError (PayloadType T) :=
  match tryGet T m with
  | some v => Except.ok v
  | none => Except.error AccessError.typeMismatch

/-!
## Extraction replay machinery

A pass over a SentenceReader is a list of typed extraction operations; this
is the surface the idempotence and frame claims quantify over.
-/

inductive ExtractOp
  | eInt
  | eDbl
  | eReg
  | eStr
deriving DecidableEq, Repr

inductive ExtractedVal
  | vInt (i : Int)
  | vDbl (q : ℚ)
  | vReg (n : Nat)
  | vStr (s : List Nat)
deriving DecidableEq, Repr

/-- Run one typed extraction (`>>`) on the stream. -/
def runOp (s : NMEAExtractionStream) : ExtractOp → NMEAExtractionStream × ExtractedVal
  | .eInt => ((extractInt s).1, .vInt (extractInt s).2)
  | .eDbl => ((extractDouble s).1, .vDbl (extractDouble s).2)
  | .eReg => ((extractRegister s).1, .vReg (extractRegister s).2)
  | .eStr => ((extractString s).1, .vStr (extractString s).2)

/-- Run a sequence of typed extractions, collecting the extracted values. -/
def runOps (s : NMEAExtractionStream) : List ExtractOp →
    NMEAExtractionStream × List ExtractedVal
  | [] => (s, [])
  | op :: ops =>
    ((runOps (runOp s op).1 ops).1, (runOp s op).2 :: (runOps (runOp s op).1 ops).2)

/-- Cursor advance of one extraction as a function of the field sequence and
cursor alone (proof-side projection). -/
def nextIdx (fields : List (List Nat)) (idx : Nat) : Nat :=
  if fields.length ≤ idx then idx else idx + 1

/-- The field one extraction consumes, as a function of fields and cursor
(empty past the end). -/
def fieldVal (fields : List (List Nat)) (idx : Nat) : List Nat :=
  if fields.length ≤ idx then [] else fields.getD idx []

/-- The value one typed extraction stores, as a function of the consumed
field (proof-side projection of `extractInt`/`extractDouble`/
`extractRegister`/`extractString`). -/
def valSpec (op : ExtractOp) (f : List Nat) : ExtractedVal :=
  match op with
  | .eInt => .vInt (if f = [] then 0 else (fromCharsInt f).getD 0)
  | .eDbl => .vDbl (if f = [] then 0 else (strtodParse f).getD 0)
  | .eReg => .vReg (if f = [] then 0 else
      if stripHexMark f = [] then 0 else
      if (stripHexMark f).all isHexByte then (fromCharsHexU32 (stripHexMark f)).getD 0
      else 0)
  | .eStr => .vStr f

/-- The values a pass produces, as a function of fields and starting cursor
alone. -/
def specRun (fields : List (List Nat)) (idx : Nat) :
    List ExtractOp → List ExtractedVal
  | [] => []
  | op :: ops =>
    valSpec op (fieldVal fields idx) :: specRun fields (nextIdx fields idx) ops

/-!
## Spec-side checksum definition

Written from the spec's words for the checksum claim, to be compared with the
source transliteration `calculateNMEAChecksum`.
-/

/-- Spec wording: XOR of the bytes at offsets `[1, length)`, stopping
immediately before the first `*` if one occurs there, through `length - 1`
otherwise. -/
def checksumBytesSpec (data : List Nat) (length : Nat) : Nat :=
  (((data.take length).drop 1).takeWhile (fun b => b ≠ 42)).foldl Nat.xor 0

/-!
## Concrete scenario states used by individual claims
-/

/-- A sentence whose `*56` suffix matches the computed XOR of `GPGGA`. -/
def c1Stream : NMEAExtractionStream := mkStream (str "$GPGGA*56" ++ [13, 10])

/-- A writer whose 7-byte buffer is exactly filled by the preamble
`$GPGGA,`, then asked for an empty field. -/
def c2Writer : NMEAInsertionStream :=
  emptyFieldOp (mkWriter 7 (str "GP") (str "GGA"))

/-- The double 123.456 as the reduced rational 15432/125, built with explicit
fields so that its numerator and denominator are literals (the proofs of the
side conditions are irrelevant to reduction). -/
def c3Double : ℚ := ⟨15432, 125, by norm_num, by norm_num⟩

/-- The §8 writer scenario: talker `GP`, message `GGA`, integer 42 in
decimal mode, double 123.456, text `STRING`, finalize. -/
def c3Writer : NMEAInsertionStream :=
  endMsgOp (strOp (dblOp (intOp (decOp (mkWriter 64 (str "GP") (str "GGA"))) 42)
    c3Double) (str "STRING"))

/-- The wire bytes the §8 scenario leaves in the buffer. -/
def c3Out : List Nat := bufBytes c3Writer.writes c3Writer.mLen

/-- A reader whose cursor (5) is past the last field. -/
def c5Stream : NMEAExtractionStream :=
  { mFields := [str "GPGGA", str "7"]
    mChecksumValidFlag := false
    mChecksum := 0
    mErrorFlag := false
    mTalker := str "GP"
    mMessage := str "GGA"
    mFieldIdx := 5 }

/-- A reader whose first value field is nine hex digits (value `2^32`). -/
def c7Stream : NMEAExtractionStream :=
  mkStream (str "$GPGGA,100000000*11" ++ [13, 10])

/-- A reader whose first value field is `0x1A`. -/
def c7GoodStream : NMEAExtractionStream :=
  mkStream (str "$GPGGA,0x1A*11" ++ [13, 10])

/-- An erased message holding a `GGAMessage` payload. -/
def c8Msg : AnyNMEAMessage :=
  { self_ := some ⟨.gga, { i := 1, d := 0, s := [] }⟩
    talker_ := str "GP"
    messageName_ := str "GGA"
    checksum_ := 0
    size_ := 0 }

/-!
## Theorems
-/

theorem checksumLoop_eq_foldl (l : List Nat) (acc : Nat) :
    checksumLoop l acc = (l.takeWhile (fun b => b ≠ 42)).foldl Nat.xor acc := by
  induction l generalizing acc with
  | nil => rfl
  | cons b rest ih =>
    by_cases hb : b = 42
    · simp [checksumLoop, hb, List.takeWhile_cons]
    · simp [checksumLoop, hb, List.takeWhile_cons, ih]

/-- C6: for every byte buffer starting with the `$` marker and every length,
`calculateNMEAChecksum` equals the XOR of the bytes at offsets `[1, length)`,
stopping immediately before the first `*` if one occurs in that range and
running through `length - 1` otherwise. -/
theorem checksum_spec_c6 (data : List Nat) (length : Nat)
    (_h : data.head? = some 36) :
    calculateNMEAChecksum data length = checksumBytesSpec data length := by
  unfold calculateNMEAChecksum checksumBytesSpec
  exact checksumLoop_eq_foldl _ 0

theorem checksum_spec_c6_witness :
    (str "$GPGGA*56").head? = some 36 ∧
    calculateNMEAChecksum (str "$GPGGA*56") 7 =
      checksumBytesSpec (str "$GPGGA*56") 7 :=
  ⟨by decide, checksum_spec_c6 (str "$GPGGA*56") 7 (by decide)⟩

/-- C1: on the sentence `$GPGGA*56\r\n` the constructor records that the
computed checksum (0x56 = 86) equals the parsed one — yet `isChecksumValid`
still returns false, because its body is `return false;` and never consults
the recorded flag.  This exhibits the code bug the claim trips over. -/
theorem checksum_validity_dropped_c1 :
    c1Stream.mChecksumValidFlag = true ∧
    c1Stream.mChecksum = 86 ∧
    isChecksumValid c1Stream = false := by decide

/-- C2: a writer over a 7-byte buffer (exactly filled by the preamble
`$GPGGA,`) that is asked for an empty field writes a comma at offset 7 — one
byte beyond the buffer — and reports length 8 > capacity, exhibiting the code
bug (the `EmptyField` inserter has no capacity check; the `double` inserter
even uses unbounded `sprintf`). -/
theorem writer_overflow_c2 :
    c2Writer.mCapacity = 7 ∧
    c2Writer.writes.any (fun e => c2Writer.mCapacity ≤ e.1) = true ∧
    c2Writer.mLen = 8 := by decide

/-- C3: the §8 scenario (talker `GP`, message `GGA`, integer 42 in decimal
mode, double 123.456, text `STRING`, finalize) leaves exactly
`$GPGGA,42,123.456000,STRING*` followed by two uppercase hex digits equal to
the XOR of the bytes from offset 1 up to the `*`, then `\r\n`. -/
theorem writer_scenario_c3 :
    c3Out =
      str "$GPGGA,42,123.456000,STRING*" ++
        hexPad 2 (((c3Out.drop 1).takeWhile (fun b => b ≠ 42)).foldl Nat.xor 0) ++
        [13, 10] ∧
    (hexPad 2 (((c3Out.drop 1).takeWhile (fun b => b ≠ 42)).foldl Nat.xor 0)).length
      = 2 ∧
    (hexPad 2 (((c3Out.drop 1).takeWhile (fun b => b ≠ 42)).foldl Nat.xor 0)).all
      (fun b => isDigitByte b || (decide (65 ≤ b) && decide (b ≤ 70))) = true := by
  decide

/-- C5: once the cursor has passed the last field, every typed extraction
(integer, double, register, text) only sets the error flag and stores the
zero/empty default; the state is otherwise untouched (in particular no field
is read — the model's total functions never index outside `mFields`). -/
theorem extract_past_end_c5 (s : NMEAExtractionStream)
    (h : s.mFields.length ≤ s.mFieldIdx) :
    extractInt s = ({ s with mErrorFlag := true }, 0) ∧
    extractDouble s = ({ s with mErrorFlag := true }, 0) ∧
    extractRegister s = ({ s with mErrorFlag := true }, 0) ∧
    extractString s = ({ s with mErrorFlag := true }, []) := by
  unfold extractInt extractDouble extractRegister extractString nextField
  simp [h]

theorem extract_past_end_c5_witness :
    (c5Stream.mFields.length ≤ c5Stream.mFieldIdx) ∧
    (extractInt c5Stream = ({ c5Stream with mErrorFlag := true }, 0) ∧
     extractDouble c5Stream = ({ c5Stream with mErrorFlag := true }, 0) ∧
     extractRegister c5Stream = ({ c5Stream with mErrorFlag := true }, 0) ∧
     extractString c5Stream = ({ c5Stream with mErrorFlag := true }, [])) :=
  ⟨by decide, extract_past_end_c5 c5Stream (by decide)⟩

/-- C10: `reset` only rewrites the cursor to 1; the cumulative error flag —
and every other component — is unchanged, so errors from a first pass remain
visible after rewinding. -/
theorem reset_frame_c10 (s : NMEAExtractionStream) :
    hasError (reset s) = hasError s ∧
    (reset s).mFields = s.mFields ∧
    (reset s).mChecksumValidFlag = s.mChecksumValidFlag ∧
    (reset s).mChecksum = s.mChecksum ∧
    (reset s).mTalker = s.mTalker ∧
    (reset s).mMessage = s.mMessage ∧
    (reset s).mFieldIdx = 1 :=
  ⟨rfl, rfl, rfl, rfl, rfl, rfl, rfl⟩

/-- C8: a non-empty container holding a payload of type `t` refuses checked
access at any distinct type `u` — `tryGet` yields nothing and `get` fails
with the type-mismatch error — while access at `t` returns the stored
payload. -/
theorem erased_get_c8 (t u : PayloadTag) (v : PayloadType t) (m : AnyNMEAMessage)
    (hm : m.self_ = some ⟨t, v⟩) (hne : u ≠ t) :
    tryGet u m = none ∧
    getChecked u m = Except.error AccessError.typeMismatch ∧
    getChecked t m = Except.ok v := by
  have h1 : tryGet u m = none := by
    unfold tryGet
    rw [hm]
    exact dif_neg (fun h => hne h.symm)
  have h2 : tryGet t m = some v := by
    unfold tryGet
    rw [hm]
    exact dif_pos rfl
  refine ⟨h1, ?_, ?_⟩
  · unfold getChecked
    rw [h1]
  · unfold getChecked
    rw [h2]

theorem erased_get_c8_witness :
    (PayloadTag.rmc ≠ PayloadTag.gga) ∧
    (tryGet .rmc c8Msg = none ∧
     getChecked .rmc c8Msg = Except.error AccessError.typeMismatch ∧
     getChecked .gga c8Msg = Except.ok { i := 1, d := 0, s := [] }) :=
  ⟨by decide, erased_get_c8 .gga .rmc { i := 1, d := 0, s := [] } c8Msg rfl (by decide)⟩

theorem extractInt_proj (s : NMEAExtractionStream) :
    (extractInt s).1.mFields = s.mFields ∧
    (extractInt s).1.mFieldIdx = nextIdx s.mFields s.mFieldIdx ∧
    (extractInt s).2 = (if fieldVal s.mFields s.mFieldIdx = [] then 0
      else (fromCharsInt (fieldVal s.mFields s.mFieldIdx)).getD 0) := by
  unfold extractInt nextField nextIdx fieldVal
  by_cases hc : s.mFields.length ≤ s.mFieldIdx
  · simp only [if_pos hc]
    simp
  · simp only [if_neg hc]
    by_cases hf : s.mFields.getD s.mFieldIdx [] = []
    · simp only [if_pos hf]
      simp
    · simp only [if_neg hf]
      cases hfc : fromCharsInt (s.mFields.getD s.mFieldIdx []) <;>
        simp only [hfc, Option.getD_none, Option.getD_some] <;> simp

theorem extractDouble_proj (s : NMEAExtractionStream) :
    (extractDouble s).1.mFields = s.mFields ∧
    (extractDouble s).1.mFieldIdx = nextIdx s.mFields s.mFieldIdx ∧
    (extractDouble s).2 = (if fieldVal s.mFields s.mFieldIdx = [] then 0
      else (strtodParse (fieldVal s.mFields s.mFieldIdx)).getD 0) := by
  unfold extractDouble nextField nextIdx fieldVal
  by_cases hc : s.mFields.length ≤ s.mFieldIdx
  · simp only [if_pos hc]
    simp
  · simp only [if_neg hc]
    by_cases hf : s.mFields.getD s.mFieldIdx [] = []
    · simp only [if_pos hf]
      simp
    · simp only [if_neg hf]
      cases hfc : strtodParse (s.mFields.getD s.mFieldIdx []) <;>
        simp only [hfc, Option.getD_none, Option.getD_some] <;> simp

theorem extractRegister_proj (s : NMEAExtractionStream) :
    (extractRegister s).1.mFields = s.mFields ∧
    (extractRegister s).1.mFieldIdx = nextIdx s.mFields s.mFieldIdx ∧
    (extractRegister s).2 = (if fieldVal s.mFields s.mFieldIdx = [] then 0 else
      if stripHexMark (fieldVal s.mFields s.mFieldIdx) = [] then 0 else
      if (stripHexMark (fieldVal s.mFields s.mFieldIdx)).all isHexByte then
        (fromCharsHexU32 (stripHexMark (fieldVal s.mFields s.mFieldIdx))).getD 0
      else 0) := by
  unfold extractRegister nextField nextIdx fieldVal
  by_cases hc : s.mFields.length ≤ s.mFieldIdx
  · simp only [if_pos hc]
    simp
  · simp only [if_neg hc]
    by_cases hf : s.mFields.getD s.mFieldIdx [] = []
    · simp only [if_pos hf]
      simp
    · simp only [if_neg hf]
      by_cases hx : stripHexMark (s.mFields.getD s.mFieldIdx []) = []
      · simp only [if_pos hx]
        simp
      · simp only [if_neg hx]
        by_cases ha : (stripHexMark (s.mFields.getD s.mFieldIdx [])).all isHexByte
        · simp only [if_pos ha]
          cases hfc : fromCharsHexU32 (stripHexMark (s.mFields.getD s.mFieldIdx [])) <;>
            simp only [hfc, Option.getD_none, Option.getD_some] <;> simp
        · simp only [if_neg ha]
          simp

theorem extractString_proj (s : NMEAExtractionStream) :
    (extractString s).1.mFields = s.mFields ∧
    (extractString s).1.mFieldIdx = nextIdx s.mFields s.mFieldIdx ∧
    (extractString s).2 = fieldVal s.mFields s.mFieldIdx := by
  unfold extractString nextField nextIdx fieldVal
  by_cases hc : s.mFields.length ≤ s.mFieldIdx
  · simp only [if_pos hc]
    simp
  · simp only [if_neg hc]
    simp

theorem runOp_proj (s : NMEAExtractionStream) (op : ExtractOp) :
    (runOp s op).1.mFields = s.mFields ∧
    (runOp s op).1.mFieldIdx = nextIdx s.mFields s.mFieldIdx ∧
    (runOp s op).2 = valSpec op (fieldVal s.mFields s.mFieldIdx) := by
  cases op with
  | eInt => exact ⟨(extractInt_proj s).1, (extractInt_proj s).2.1,
      by simp only [runOp, valSpec, (extractInt_proj s).2.2]⟩
  | eDbl => exact ⟨(extractDouble_proj s).1, (extractDouble_proj s).2.1,
      by simp only [runOp, valSpec, (extractDouble_proj s).2.2]⟩
  | eReg => exact ⟨(extractRegister_proj s).1, (extractRegister_proj s).2.1,
      by simp only [runOp, valSpec, (extractRegister_proj s).2.2]⟩
  | eStr => exact ⟨(extractString_proj s).1, (extractString_proj s).2.1,
      by simp only [runOp, valSpec, (extractString_proj s).2.2]⟩

theorem runOps_proj (ops : List ExtractOp) (s : NMEAExtractionStream) :
    (runOps s ops).1.mFields = s.mFields ∧
    (runOps s ops).2 = specRun s.mFields s.mFieldIdx ops := by
  induction ops generalizing s with
  | nil => exact ⟨rfl, rfl⟩
  | cons op ops ih =>
    obtain ⟨hf, hi, hv⟩ := runOp_proj s op
    obtain ⟨ihf, ihv⟩ := ih (runOp s op).1
    refine ⟨?_, ?_⟩
    · show (runOps (runOp s op).1 ops).1.mFields = s.mFields
      rw [ihf, hf]
    · show (runOp s op).2 :: (runOps (runOp s op).1 ops).2 =
        valSpec op (fieldVal s.mFields s.mFieldIdx) ::
          specRun s.mFields (nextIdx s.mFields s.mFieldIdx) ops
      rw [hv, ihv, hf, hi]

/-- C9: `reset` rewinds the cursor to the first value field (index 1, the
same index a fresh reader starts at), and replaying any sequence of typed
extractions after the reset yields exactly the values of the first pass:
extracted values are a function of the field sequence and cursor alone, both
of which `reset` restores. -/
theorem reset_replay_c9 (msg : List Nat) (ops : List ExtractOp) :
    (reset (runOps (mkStream msg) ops).1).mFieldIdx = 1 ∧
    (runOps (reset (runOps (mkStream msg) ops).1) ops).2 =
      (runOps (mkStream msg) ops).2 := by
  refine ⟨rfl, ?_⟩
  have h0 := runOps_proj ops (mkStream msg)
  have h1 := runOps_proj ops (reset (runOps (mkStream msg) ops).1)
  have e1 : (runOps (reset (runOps (mkStream msg) ops).1) ops).2 =
      specRun (runOps (mkStream msg) ops).1.mFields 1 ops := h1.2
  rw [e1, h0.1, h0.2]
  rfl

/-- C7 counterexample: the field `100000000` (nine hex digits, value `2^32`)
is nonempty and entirely hex digits with no `0x` mark, yet the register
extraction sets the error flag and stores 0 (the `from_chars` parse into
`uint32_t` reports out-of-range), refuting the claim that such a field always
parses successfully. -/
theorem register_overflow_c7 :
    (c7Stream.mFields.getD 1 []) ≠ [] ∧
    stripHexMark (c7Stream.mFields.getD 1 []) ≠ [] ∧
    (stripHexMark (c7Stream.mFields.getD 1 [])).all isHexByte = true ∧
    c7Stream.mFieldIdx = 1 ∧
    (extractRegister c7Stream).1.mErrorFlag = true ∧
    (extractRegister c7Stream).2 = 0 := by decide

/-- C7 amended: for a reader whose cursor is in range, register extraction
succeeds exactly when, after removing one optional `0x`/`0X` mark, the
remainder is nonempty, entirely hex digits, AND its value fits 32 bits
(at most `FFFFFFFF`), storing that value; otherwise the error flag is set and
zero is stored.  (The cursor advances either way.) -/
theorem register_hex_amended_c7 (s : NMEAExtractionStream)
    (h : s.mFieldIdx < s.mFields.length) :
    extractRegister s =
      (if stripHexMark (s.mFields.getD s.mFieldIdx []) ≠ [] ∧
          (stripHexMark (s.mFields.getD s.mFieldIdx [])).all isHexByte = true ∧
          hexValue (stripHexMark (s.mFields.getD s.mFieldIdx [])) < 2 ^ 32 then
        ({ s with mFieldIdx := s.mFieldIdx + 1 },
          hexValue (stripHexMark (s.mFields.getD s.mFieldIdx [])))
      else ({ s with mFieldIdx := s.mFieldIdx + 1, mErrorFlag := true }, 0)) := by
  have hc : ¬ s.mFields.length ≤ s.mFieldIdx := Nat.not_le.mpr h
  unfold extractRegister nextField fromCharsHexU32
  simp only [if_neg hc]
  by_cases hf : s.mFields.getD s.mFieldIdx [] = []
  · have hx : stripHexMark (s.mFields.getD s.mFieldIdx []) = [] := by
      rw [hf]
      rfl
    have hC : ¬ (stripHexMark (s.mFields.getD s.mFieldIdx []) ≠ [] ∧
        (stripHexMark (s.mFields.getD s.mFieldIdx [])).all isHexByte = true ∧
        hexValue (stripHexMark (s.mFields.getD s.mFieldIdx [])) < 2 ^ 32) :=
      fun c => c.1 hx
    rw [if_pos hf, if_neg hC]
  · rw [if_neg hf]
    by_cases hx : stripHexMark (s.mFields.getD s.mFieldIdx []) = []
    · have hC : ¬ (stripHexMark (s.mFields.getD s.mFieldIdx []) ≠ [] ∧
          (stripHexMark (s.mFields.getD s.mFieldIdx [])).all isHexByte = true ∧
          hexValue (stripHexMark (s.mFields.getD s.mFieldIdx [])) < 2 ^ 32) :=
        fun c => c.1 hx
      rw [if_pos hx, if_neg hC]
    · rw [if_neg hx]
      by_cases ha : (stripHexMark (s.mFields.getD s.mFieldIdx [])).all isHexByte = true
      · rw [if_pos ha]
        by_cases hlt : hexValue (stripHexMark (s.mFields.getD s.mFieldIdx [])) < 2 ^ 32
        · rw [if_pos hlt, if_pos ⟨hx, ha, hlt⟩]
        · rw [if_neg hlt, if_neg (fun c => hlt c.2.2)]
      · rw [if_neg ha, if_neg (fun c => ha c.2.1)]

theorem register_hex_amended_c7_witness :
    (c7GoodStream.mFieldIdx < c7GoodStream.mFields.length) ∧
    extractRegister c7GoodStream = ({ c7GoodStream with mFieldIdx := 2 }, 26) := by
  refine ⟨by decide, ?_⟩
  rw [register_hex_amended_c7 c7GoodStream (by decide)]
  decide

theorem dropWhile_append_all (p : Nat → Bool) (pre rest : List Nat)
    (h : ∀ b ∈ pre, p b = true) :
    List.dropWhile p (pre ++ rest) = List.dropWhile p rest := by
  induction pre with
  | nil => rfl
  | cons a l ih =>
    rw [List.cons_append, List.dropWhile_cons, if_pos (h a (List.mem_cons_self a l))]
    exact ih (fun b hb => h b (List.mem_cons_of_mem a hb))

theorem takeWhile_append_stop (p : Nat → Bool) (pre : List Nat) (b : Nat)
    (rest : List Nat) (h : ∀ x ∈ pre, p x = true) (hb : p b = false) :
    List.takeWhile p (pre ++ b :: rest) = pre := by
  induction pre with
  | nil => simp [List.takeWhile_cons, hb]
  | cons a l ih =>
    rw [List.cons_append, List.takeWhile_cons, if_pos (h a (List.mem_cons_self a l))]
    rw [ih (fun x hx => h x (List.mem_cons_of_mem a hx))]

theorem takeWhile_all (p : Nat → Bool) (l : List Nat) (h : ∀ x ∈ l, p x = true) :
    List.takeWhile p l = l := by
  induction l with
  | nil => rfl
  | cons a t ih =>
    rw [List.takeWhile_cons, if_pos (h a (List.mem_cons_self a t))]
    rw [ih (fun x hx => h x (List.mem_cons_of_mem a hx))]

theorem trimTrailing_of_getLast (l : List Nat) (c : Nat)
    (hL : l.getLast? = some c) (hc : isTrimByte c = false) :
    trimTrailing l = l := by
  unfold trimTrailing
  cases hrev : l.reverse with
  | nil =>
    have : l = [] := by simpa using congrArg List.reverse hrev
    simp [this]
  | cons a t =>
    have h1 := List.head?_reverse l
    rw [hrev, hL] at h1
    have ha : a = c := by simpa using h1
    rw [List.dropWhile_cons, if_neg (by simp [ha, hc])]
    rw [← hrev, List.reverse_reverse]

theorem trimTrailing_append (l₁ l₂ : List Nat) (c : Nat)
    (hL : l₁.getLast? = some c) (hc : isTrimByte c = false) :
    trimTrailing (l₁ ++ l₂) = l₁ ++ trimTrailing l₂ := by
  unfold trimTrailing
  rw [List.reverse_append, List.dropWhile_append]
  have hdw : List.dropWhile isTrimByte l₁.reverse = l₁.reverse := by
    cases hrev : l₁.reverse with
    | nil => rfl
    | cons a t =>
      have h1 := List.head?_reverse l₁
      rw [hrev, hL] at h1
      have ha : a = c := by simpa using h1
      rw [List.dropWhile_cons, if_neg (by simp [ha, hc])]
  by_cases he : (List.dropWhile isTrimByte l₂.reverse).isEmpty
  · rw [if_pos he, hdw, List.reverse_reverse]
    rw [List.isEmpty_iff.mp he]
    simp
  · rw [if_neg he, List.reverse_append, List.reverse_reverse]

theorem splitFieldsAux_concat_comma (xs : List Nat) :
    ∀ acc, splitFieldsAux (xs ++ [44]) acc = splitFieldsAux xs acc ++ [[]] := by
  induction xs with
  | nil => intro acc; rfl
  | cons b t ih =>
    intro acc
    by_cases hb : b = 44
    · subst hb
      rw [List.cons_append]
      show splitFieldsAux (44 :: (t ++ [44])) acc = _
      simp only [splitFieldsAux, if_pos rfl]
      rw [ih []]
      rfl
    · rw [List.cons_append]
      show splitFieldsAux (b :: (t ++ [44])) acc = _
      simp only [splitFieldsAux, if_neg hb]
      rw [ih (b :: acc)]

/-- C4: for every framed sentence whose body ends with a trailing comma —
whether a checksum suffix follows it or nothing does — tokenization yields
the fields of the comma-shorn body followed by one extra explicit empty
field; in particular `$GPGGA,1,2,*47\r\n` tokenizes to the header token,
`1`, `2`, and the empty field. -/
theorem trailing_comma_c4 (body hh : List Nat)
    (hstar : (42 : Nat) ∉ body) (hend : body.getLast? = some 44) :
    parseMessage (36 :: body ++ 42 :: hh ++ [13, 10]) =
      splitFieldsAux body.dropLast [] ++ [[]] ∧
    parseMessage (36 :: body ++ [13, 10]) =
      splitFieldsAux body.dropLast [] ++ [[]] ∧
    parseMessage (str "$GPGGA,1,2,*47" ++ [13, 10]) =
      [str "GPGGA", str "1", str "2", []] := by
  have hbody_ne : body ≠ [] := by
    intro e
    rw [e] at hend
    simp at hend
  have hlast36 : (36 :: body).getLast? = some 44 := by
    rw [show (36 :: body) = [36] ++ body from rfl,
      List.getLast?_append_of_ne_nil _ hbody_ne, hend]
  have hgl : body.getLast hbody_ne = 44 := by
    have h := List.getLast?_eq_getLast body hbody_ne
    rw [hend] at h
    exact (Option.some.inj h).symm
  have hbody_eq : body = body.dropLast ++ [44] := by
    conv_lhs => rw [← List.dropLast_append_getLast hbody_ne]
    rw [hgl]
  have hsplit_body : splitFieldsAux body [] = splitFieldsAux body.dropLast [] ++ [[]] := by
    conv_lhs => rw [hbody_eq]
    exact splitFieldsAux_concat_comma body.dropLast []
  refine ⟨?_, ?_, by decide⟩
  · have h1 : trimTrailing (36 :: body ++ 42 :: hh ++ [13, 10]) =
        36 :: body ++ 42 :: trimTrailing (hh ++ [13, 10]) := by
      have h := trimTrailing_append (36 :: body ++ [42]) (hh ++ [13, 10]) 42
        (by rw [show 36 :: body ++ [42] = (36 :: body) ++ [42] from rfl]
            exact List.getLast?_concat _) (by decide)
      simpa using h
    unfold parseMessage
    rw [h1]
    simp only [List.cons_append, List.head?_cons, if_pos rfl]
    have h2 : List.takeWhile (fun b => decide (b ≠ 42))
        (36 :: (body ++ 42 :: trimTrailing (hh ++ [13, 10]))) = 36 :: body := by
      have h := takeWhile_append_stop (fun b => decide (b ≠ 42)) (36 :: body) 42
        (trimTrailing (hh ++ [13, 10]))
        (by intro x hx
            rcases List.mem_cons.mp hx with h36 | hb
            · simp [h36]
            · simp
              intro e
              exact hstar (e ▸ hb)) (by decide)
      simpa using h
    rw [h2]
    rw [if_pos (by simp only [List.length_cons, List.length_append])]
    rw [trimTrailing_of_getLast _ 44 hlast36 (by decide)]
    simpa using hsplit_body
  · have h0 : trimTrailing ([13, 10] : List Nat) = [] := by decide
    have h1 : trimTrailing (36 :: body ++ [13, 10]) = 36 :: body := by
      have h := trimTrailing_append (36 :: body) [13, 10] 44 hlast36 (by decide)
      rw [h0] at h
      simpa using h
    unfold parseMessage
    rw [h1]
    simp only [List.head?_cons, if_pos rfl]
    have h2 : List.takeWhile (fun b => decide (b ≠ 42)) (36 :: body) = 36 :: body := by
      refine takeWhile_all _ _ ?_
      intro x hx
      rcases List.mem_cons.mp hx with h36 | hb
      · simp [h36]
      · simp
        intro e
        exact hstar (e ▸ hb)
    rw [h2]
    rw [if_neg (lt_irrefl _)]
    simpa using hsplit_body

theorem trailing_comma_c4_witness :
    ((42 : Nat) ∉ str "GPGGA,1,2,") ∧
    (str "GPGGA,1,2,").getLast? = some 44 ∧
    parseMessage (36 :: str "GPGGA,1,2," ++ 42 :: str "47" ++ [13, 10]) =
      splitFieldsAux (str "GPGGA,1,2,").dropLast [] ++ [[]] :=
  ⟨by decide, by decide,
    (trailing_comma_c4 (str "GPGGA,1,2,") (str "47") (by decide) (by decide)).1⟩
